import Mathlib

/-!
Verification of the tracepoint engine in `dlog.py` (GDB dynamic logging).

The Python source is shallowly embedded: each command's `invoke` body and the
`Log` breakpoint class become pure Lean functions.  Host effects (gdb.execute
expression evaluation, sink writes, file system touches) are made explicit:
evaluation is a function argument returning `Except`, writes are returned as a
list of `SinkWrite` values, raised Python exceptions are `Except.error`.
Weak-reference registry entries are `RegEntry` values with a `live` flag; a
proxy whose referent was collected has `live = false` and any attribute access
on it raises `ReferenceError` (`PyErr.refError`).
-/

set_option autoImplicit false

/-- Character constants used by the embedding, by code point: left brace (123),
right brace (125), double quote (34), single quote (39), backslash (92). -/
def lbChar : Char := Char.ofNat 123

/-- Right brace character, code point 125. -/
def rbChar : Char := Char.ofNat 125

/-- Double quote character, code point 34. -/
def qdChar : Char := Char.ofNat 34

/-- Single quote character, code point 39. -/
def qsChar : Char := Char.ofNat 39

/-- Backslash character, code point 92. -/
def bslChar : Char := Char.ofNat 92

/-- Python `mess.count("\x7b\x7d")`: number of non-overlapping occurrences of
the two-character placeholder substring, scanning left to right (after a match
the scan resumes past both characters). -/
def countPH : List Char → Nat
  | [] => 0
  | [_] => 0
  | a :: b :: rest =>
    if a = lbChar ∧ b = rbChar then 1 + countPH rest
    else countPH (b :: rest)

/-- CPython `a is not b` for two freshly computed nonnegative machine ints, as
in `mess.count("\x7b\x7d") is not (nargs - 2)` (dlog.py lines 185 and 214).
CPython interns the integers -5..256: for such values identity agrees with
equality, while two separately computed equal ints above 256 are distinct
objects, so `is not` is true for them even when the values are equal. -/
def intIsNot (a b : Nat) : Bool := !(a == b && decide (a ≤ 256))

/-- Python exceptions that the embedded code can raise. -/
inductive PyErr where
  | exn (msg : String)
  | evalError (expr : String)
  | formatError (msg : String)
  | refError
  deriving DecidableEq, Repr

deriving instance DecidableEq for Except

/-- The host expression evaluator (`gdb.execute(expr, False, True)`): per call
it either returns the captured output string or raises. -/
abbrev Evaluator := String → Except PyErr String

/-- The evaluation loop of `Log.generateLog`: `for expr in exprs:
out.append(gdb.execute(expr, False, True))`.  The first raising call aborts
the loop and propagates. -/
def evalAll (ev : Evaluator) : List String → Except PyErr (List String)
  | [] => .ok []
  | e :: rest =>
    match ev e with
    | .error er => .error er
    | .ok v =>
      match evalAll ev rest with
      | .error er => .error er
      | .ok vs => .ok (v :: vs)

/-- The expressions on which the loop of `Log.generateLog` actually calls the
evaluator: all of them up to and including the first failing one (the raised
exception aborts the loop). -/
def attemptedExprs (ev : Evaluator) : List String → List String
  | [] => []
  | e :: rest =>
    match ev e with
    | .ok _ => e :: attemptedExprs ev rest
    | .error _ => [e]

/-- Python `str.format` restricted to the replacement fields the repository
uses: automatic positional fields (open brace directly followed by close
brace) consume the next argument; doubled braces are escapes; a brace starting
any other replacement field, or an unmatched brace, raises (modelled as
`formatError`; an exhausted argument list is Python's `IndexError`, also a
`formatError` here). -/
def pyFormatGo : List Char → List String → Except PyErr (List Char)
  | [], _ => .ok []
  | [c], _ =>
    if c = lbChar ∨ c = rbChar then .error (.formatError "single brace")
    else .ok [c]
  | c :: d :: rest, args =>
    if c = lbChar then
      if d = lbChar then
        match pyFormatGo rest args with
        | .error e => .error e
        | .ok out => .ok (lbChar :: out)
      else if d = rbChar then
        match args with
        | [] => .error (.formatError "index out of range")
        | a :: args2 =>
          match pyFormatGo rest args2 with
          | .error e => .error e
          | .ok out => .ok (a.data ++ out)
      else .error (.formatError "unsupported field")
    else if c = rbChar then
      if d = rbChar then
        match pyFormatGo rest args with
        | .error e => .error e
        | .ok out => .ok (rbChar :: out)
      else .error (.formatError "single brace")
    else
      match pyFormatGo (d :: rest) args with
      | .error e => .error e
      | .ok out => .ok (c :: out)

/-- Python `.replace(chr(10), empty)` on the formatted line: every newline
character is removed. -/
def stripNl (l : List Char) : List Char := l.filter (fun c => c ≠ '\n')

/-- `Log.generateLog(mess, exprs)` (dlog.py lines 129-135): evaluate every
expression in order via `gdb.execute`, interpolate the results into the
template with `mess.format(*out)`, and strip embedded newlines.  Any raised
exception propagates to the caller. -/
def Log.generateLog (ev : Evaluator) (mess : String) (exprs : List String) :
    Except PyErr String :=
  match evalAll ev exprs with
  | .error e => .error e
  | .ok outs =>
    match pyFormatGo mess.data outs with
    | .error e => .error e
    | .ok line => .ok (String.mk (stripNl line))

/-- A write performed on the log sink. -/
inductive SinkWrite where
  | console (s : String)
  | fileAppend (path : String) (s : String)
  deriving DecidableEq, Repr

/-- `Log.stop` (dlog.py lines 155-169), the hit handler: returns the writes it
performed together with the handler's outcome — `.ok false` is the "do not
halt" signal, `.error e` is an exception escaping `stop` to the GDB
dispatcher.  If the sink is disabled it returns `false` without evaluating;
otherwise it calls `Log.generateLog` (whose exceptions it does not catch) and
writes the line to stdout as is, or to the file with a trailing newline. -/
def Log.stop (logFile : String) (ev : Evaluator) (mess : String)
    (exprs : List String) : List SinkWrite × Except PyErr Bool :=
  if logFile = "" ∨ logFile = "none" then ([], .ok false)
  else
    match Log.generateLog ev mess exprs with
    | .error e => ([], .error e)
    | .ok outStr =>
      if logFile = "stdout" then ([.console outStr], .ok false)
      else ([.fileAppend logFile (outStr ++ "\n")], .ok false)

/-- `LogFile.invoke` (dlog.py lines 16-26): returns the new value of the
`logFile` global together with the list of paths passed to `Path(...).touch`.
With a non-sentinel argument the code runs `Path(logFile).touch(...)` — the
previous value — before assigning `logFile = arg`. -/
def logfileInvoke (logFile : String) (arg : String) : String × List String :=
  if arg = "" then (logFile, [])
  else if arg = "stdout" ∨ arg = "none" then (arg, [])
  else (arg, [logFile])

/-- A `Log` breakpoint's user-visible data: the location spec it was created
with (returned verbatim by `gdb.Breakpoint.location`), the message template
attribute `mMess` and the expression list attribute `mExprs`. -/
structure Tracepoint where
  location : String
  mMess : String
  mExprs : List String
  deriving DecidableEq, Repr

/-- One slot of `Log.instances`: a `weakref.proxy` to a `Log` object.  While
the breakpoint exists GDB keeps the object alive (`live = true`); once its
binding is destroyed the object is collected and any attribute access on the
proxy raises `ReferenceError` (`live = false`). -/
structure RegEntry where
  live : Bool
  tp : Tracepoint
  deriving DecidableEq, Repr

/-- The `Log.instances` registry: an insertion-ordered list of weak proxies. -/
abbrev Registry := List RegEntry

/-- `AddLog.invoke` after `gdb.string_to_argv` (dlog.py lines 208-219): with
fewer than two tokens it raises; otherwise it checks
`mess.count("\x7b\x7d") is not (nargs - 2)` and on success appends a new live
`Log` with `mMess = args[1]` and `mExprs = args[2:]` to the registry. -/
def addLogArgs (st : Registry) (args : List String) : Except PyErr Registry :=
  match args with
  | spec :: mess :: exprs =>
    if intIsNot (countPH mess.data) exprs.length then
      .error (.exn "Invalid message format")
    else
      .ok (st ++ [{ live := true, tp := { location := spec, mMess := mess, mExprs := exprs } }])
  | _ => .error (.exn "Not enough arguments")

/-- `RmLog.invoke` with an index argument (dlog.py lines 310-314): bounds-check
`i < 0 or i >= len(Log.instances)` raises; otherwise `Log.instances[i].delete()`
destroys the binding (whereupon the proxy in the slot goes dead) — the slot
itself is never removed from the list.  If the slot already holds a dead
proxy, the `delete()` attribute access raises `ReferenceError`. -/
def rmlogIndexed (st : Registry) (i : Int) : Except PyErr Registry :=
  if i < 0 ∨ (st.length : Int) ≤ i then .error (.exn "Log index out of bounds")
  else
    match st.get? i.toNat with
    | none => .error (.exn "Log index out of bounds")
    | some e =>
      if e.live then .ok (st.set i.toNat { live := false, tp := e.tp })
      else .error .refError

/-- The loop of `ListLogs.invoke` (dlog.py lines 290-294): `enumerate` over the
full registry, printing `(i, log.location, log.mMess)` for each slot and
silently skipping the slots whose proxy raises `ReferenceError`.  Note the
index `i` advances on dead slots too. -/
def listLogsGo (i : Nat) : Registry → List (Nat × String × String)
  | [] => []
  | e :: rest =>
    if e.live then (i, e.tp.location, e.tp.mMess) :: listLogsGo (i + 1) rest
    else listLogsGo (i + 1) rest

/-- `ListLogs.invoke` (dlog.py lines 283-294): the rows printed by the listing
command. -/
def listLogs (st : Registry) : List (Nat × String × String) := listLogsGo 0 st

/-- The loop of `RmLog.invoke` without argument: `for log in Log.instances:
log.delete()`.  Returns the registry as left by the loop and whether the loop
completed; a dead proxy raises `ReferenceError`, aborting the loop with the
earlier slots already deleted (dead) and `Log.instances` not yet reset. -/
def deleteAllGo : Registry → Registry × Bool
  | [] => ([], true)
  | e :: rest =>
    if e.live then
      ({ live := false, tp := e.tp } :: (deleteAllGo rest).1, (deleteAllGo rest).2)
    else (e :: rest, false)

/-- `RmLog.invoke` with no argument (dlog.py lines 305-309): delete every
registered breakpoint then set `Log.instances = []`; on a `ReferenceError`
the reset is never reached. -/
def rmlogNoArg (st : Registry) : Registry × Bool :=
  if (deleteAllGo st).2 then ([], true) else ((deleteAllGo st).1, false)

/-- Python `line.rstrip()`: remove trailing whitespace. -/
def rstripPy (s : String) : String :=
  String.mk ((s.data.reverse.dropWhile (fun c =>
    c == ' ' || c == '\t' || c == '\n' || c == '\r' ||
    c == Char.ofNat 11 || c == Char.ofNat 12)).reverse)

/-- The breakpoint-definition line marker of `ImportLogs.invoke`:
`sizeOfToken = len("break ")`. -/
def breakTok : String := "break "

/-- Python `s.startswith(tok)` combined with the slice `s[len(tok):]`: `some`
of the rest of the characters when `tok` is a prefix, `none` otherwise. -/
def stripTok : List Char → List Char → Option (List Char)
  | [], l => some l
  | _ :: _, [] => none
  | t :: ts, c :: cs => if c = t then stripTok ts cs else none

/-- The shared-template loop of `ImportLogs.invoke` (dlog.py lines 246-254):
for every line of the file, `rstrip` it, skip it unless it starts with
`break `, and otherwise create a `Log` at the rest of the line carrying the
shared message and expressions.  No arity validation is performed anywhere on
this path. -/
def importSharedGo (mess : String) (exprs : List String) : List String → Registry
  | [] => []
  | line :: rest =>
    match stripTok breakTok.data (rstripPy line).data with
    | some spec =>
      { live := true, tp := { location := String.mk spec, mMess := mess, mExprs := exprs } }
        :: importSharedGo mess exprs rest
    | none => importSharedGo mess exprs rest

/-- `ImportLogs.invoke` in shared-template mode (second and later arguments
present), given the file's lines: every created `Log` is appended to the
registry in file order. -/
def importLogsShared (st : Registry) (mess : String) (exprs : List String)
    (fileLines : List String) : Registry :=
  st ++ importSharedGo mess exprs fileLines

/-- A concrete evaluator for witnesses: fails on the expression `bad`,
returns the output `1` for everything else. -/
def evFail : Evaluator := fun e =>
  if e = "bad" then .error (.evalError "bad") else .ok "1"

/-- Placeholder list with `n` copies of the placeholder `\x7b\x7d`, used to
exhibit templates with many placeholders. -/
def repPHL : Nat → List Char
  | 0 => []
  | n + 1 => lbChar :: rbChar :: repPHL n

/-- Sample tracepoint used by concrete registry witnesses. -/
def tpA : Tracepoint := { location := "a.c:1", mMess := "A", mExprs := [] }

/-- Second sample tracepoint used by concrete registry witnesses. -/
def tpB : Tracepoint := { location := "b.c:2", mMess := "B", mExprs := [] }

/-- A registry holding two live tracepoints. -/
def demoTwoLive : Registry := [⟨true, tpA⟩, ⟨true, tpB⟩]

/-- A registry whose first slot holds a dead proxy and whose second is live. -/
def demoDeadFirst : Registry := [⟨false, tpA⟩, ⟨true, tpB⟩]

/-- C-locale `isspace`, as tested by libiberty's `buildargv` tokenizer behind
`gdb.string_to_argv`: space, tab, newline, carriage return, vertical tab
(11), form feed (12). -/
def isArgvSp (c : Char) : Bool :=
  c == ' ' || c == '\t' || c == '\n' || c == '\r' ||
  c == Char.ofNat 11 || c == Char.ofNat 12

/-- The scanning loop of libiberty `buildargv` (the tokenizer behind
`gdb.string_to_argv`): `none` is the between-arguments state (whitespace is
consumed), `some acc` is the in-argument state with the argument's characters
accumulated in reverse.  Flags are single quote, double quote and
backslash-pending, checked in exactly that loop's order: an unquoted
unescaped whitespace ends the argument; a pending backslash copies the
character literally; a backslash sets the pending flag; inside single or
double quotes the matching quote closes and everything else is copied; an
opening quote sets its flag.  An unterminated quote or trailing backslash is
tolerated: end of input emits the accumulated argument. -/
def argvGo : List Char → Bool → Bool → Bool → Option (List Char) → List (List Char)
  | [], _, _, _, none => []
  | [], _, _, _, some acc => [acc.reverse]
  | c :: rest, _, _, _, none =>
    if isArgvSp c then argvGo rest false false false none
    else if c = bslChar then argvGo rest false false true (some [])
    else if c = qsChar then argvGo rest true false false (some [])
    else if c = qdChar then argvGo rest false true false (some [])
    else argvGo rest false false false (some [c])
  | c :: rest, sq, dq, bs, some acc =>
    if isArgvSp c ∧ sq = false ∧ dq = false ∧ bs = false then
      acc.reverse :: argvGo rest false false false none
    else if bs then argvGo rest sq dq false (some (c :: acc))
    else if c = bslChar then argvGo rest sq dq true (some acc)
    else if sq then
      if c = qsChar then argvGo rest false dq false (some acc)
      else argvGo rest sq dq bs (some (c :: acc))
    else if dq then
      if c = qdChar then argvGo rest sq false false (some acc)
      else argvGo rest sq dq bs (some (c :: acc))
    else if c = qsChar then argvGo rest true dq bs (some acc)
    else if c = qdChar then argvGo rest sq true bs (some acc)
    else argvGo rest sq dq bs (some (c :: acc))

/-- `gdb.string_to_argv`, via libiberty `buildargv`. -/
def stringToArgv (s : String) : List String :=
  (argvGo s.data false false false none).map (fun l => String.mk l)

/-- `AddLog.invoke` (dlog.py lines 204-219) on the raw argument string: raise
on an empty argument, otherwise tokenize with `gdb.string_to_argv` and
continue as `addLogArgs`. -/
def addLogInvoke (st : Registry) (arg : String) : Except PyErr Registry :=
  if arg = "" then .error (.exn "Missing arguments")
  else addLogArgs st (stringToArgv arg)

/-- The command token written by `ExportLogs.invoke` in front of every
definition line. -/
def addlogTok : String := "addlog "

/-- The characters `"s"` of a template or expression as quoted by
`ExportLogs.invoke`: a literal double quote on each side, no escaping of the
content whatsoever. -/
def quotedChars (s : String) : List Char := qdChar :: (s.data ++ [qdChar])

/-- The `for expr in log.mExprs` part of an export line: a space and a quoted
expression for each expression, in order. -/
def exprsChars : List String → List Char
  | [] => []
  | e :: rest => ' ' :: (quotedChars e ++ exprsChars rest)

/-- The argument part of an export line:
`<location> "<template>" "<expr1>" ... "<exprN>"`. -/
def argChars (tp : Tracepoint) : List Char :=
  tp.location.data ++ ' ' :: (quotedChars tp.mMess ++ exprsChars tp.mExprs)

/-- One line written by `ExportLogs.invoke` (dlog.py line 271-273, without the
trailing newline written separately):
`addlog <location> "<template>" "<expr1>" ...`. -/
def exportLine (tp : Tracepoint) : String := String.mk (addlogTok.data ++ argChars tp)

/-- The loop of `ExportLogs.invoke` over `Log.instances`: the lines it manages
to write, paired with whether it completed.  Accessing `log.location` on a
dead proxy raises `ReferenceError`, so the loop aborts at the first dead slot
with only the earlier slots' lines written — dead slots are not skipped. -/
def exportLinesGo : Registry → List String × Bool
  | [] => ([], true)
  | e :: rest =>
    if e.live then
      (exportLine e.tp :: (exportLinesGo rest).1, (exportLinesGo rest).2)
    else ([], false)

/-- `ExportLogs.invoke` (dlog.py lines 264-274) against a file modelled as
`none` when absent: `Path(filename).touch(exist_ok=True)` creates an empty
file if needed and never truncates, then the lines are appended after the
existing content, each followed by one newline.  The flag records whether the
registry loop completed without a `ReferenceError`. -/
def exportInvoke (st : Registry) (file : Option String) : Option String × Bool :=
  (some ((file.getD "") ++ String.join ((exportLinesGo st).1.map (fun l => l ++ "\n"))),
   (exportLinesGo st).2)

/-- `ImportLogs.invoke` in single-argument mode (dlog.py line 240):
`gdb.execute("source file")` replays the file's lines; every line produced by
`exportlogs` starts with the `addlog ` token and dispatches to
`AddLog.invoke` with the rest of the line as argument, and GDB aborts the
source on the first failing line. -/
def importDefsGo (st : Registry) : List String → Except PyErr Registry
  | [] => .ok st
  | line :: rest =>
    match stripTok addlogTok.data line.data with
    | some argRest =>
      match addLogInvoke st (String.mk argRest) with
      | .error e => .error e
      | .ok st2 => importDefsGo st2 rest
    | none => .error (.exn "Undefined command")

/-- The round trip of claim C5: export the registry to a fresh file, clear the
registry with the no-argument `rmlog`, then replay the exported lines in
single-argument import mode. -/
def roundTrip (st : Registry) : Except PyErr Registry :=
  importDefsGo (rmlogNoArg st).1 (exportLinesGo st).1

/-- A character that `buildargv` scans through unchanged inside an unquoted
token: not whitespace, not a quote of either kind, not a backslash. -/
def plainTokenChar (c : Char) : Bool :=
  !(isArgvSp c) && c != qdChar && c != qsChar && c != bslChar

/-- A character that `buildargv` copies literally inside double quotes:
anything but a double quote or a backslash. -/
def cleanQuotedChar (c : Char) : Bool := c != qdChar && c != bslChar

/-- A tracepoint whose template contains a literal double quote (creatable by
`addlog s a\"b`, since `gdb.string_to_argv` honours backslash escapes). -/
def tpQuote : Tracepoint := { location := "s", mMess := "a\"b", mExprs := [] }

/-- Registry holding only `tpQuote`, live. -/
def demoQuote : Registry := [⟨true, tpQuote⟩]

/-- A tracepoint whose location, template and expressions round-trip through
the export quoting. -/
def tpClean : Tracepoint :=
  { location := "main.c:42", mMess := "x=\x7b\x7d y=\x7b\x7d", mExprs := ["x", "y"] }

/-- Registry holding only `tpClean`, live. -/
def demoClean : Registry := [⟨true, tpClean⟩]

/-- A registry with a dead slot between two live ones, for the export-abort
behaviour. -/
def demoExportAbort : Registry := [⟨true, tpA⟩, ⟨false, tpClean⟩, ⟨true, tpB⟩]

theorem repPHL_countPH (n : Nat) : countPH (repPHL n) = n := by
  induction n with
  | zero => rfl
  | succ m ih =>
    simp [repPHL, countPH, ih]
    omega

set_option maxRecDepth 100000 in
/-- C3: the claim says creation succeeds iff the placeholder count equals the
expression count; at 257 placeholders and 257 expressions the code's
`mess.count("\x7b\x7d") is not (nargs - 2)` identity test is true (the equal
ints are distinct objects above CPython's interning range), so `AddLog.invoke`
raises `Invalid message format` even though the arity matches and no
tracepoint is registered. -/
theorem addLog_rejects_equal_arity_257 :
    addLogArgs [] ("spec" :: String.mk (repPHL 257) :: List.replicate 257 "x") =
      .error (.exn "Invalid message format") ∧
    countPH (String.mk (repPHL 257)).data = (List.replicate 257 ("x" : String)).length := by
  refine ⟨by decide, by decide⟩

/-- C8: with the sink at its default `stdout`, `logfile log.txt` touches the
path `stdout` (the previous value of the global) and not `log.txt`: the file
at the newly configured path is not created by the configuration command. -/
theorem logfile_touches_old_path :
    logfileInvoke "stdout" "log.txt" = ("log.txt", ["stdout"]) ∧
    ("log.txt" : String) ∉ (["stdout"] : List String) := by
  constructor
  · rfl
  · simp

/-- C1: the hit handler contains evaluation failures on the success path only.
With the sink enabled and every evaluation succeeding, `Log.stop` performs its
write and returns the continue signal `false`; but when an expression
evaluation raises, the exception escapes `stop` to the GDB dispatcher and no
continue signal is returned, contradicting the handler's own docstring
(`always return false`). -/
theorem stop_propagates_eval_error :
    Log.stop "stdout" evFail "\x7b\x7d" ["x"] = ([.console "1"], .ok false) ∧
    Log.stop "stdout" evFail "\x7b\x7d" ["bad"] = ([], .error (.evalError "bad")) ∧
    (Log.stop "stdout" evFail "\x7b\x7d" ["bad"]).2 ≠ .ok false := by
  refine ⟨by decide, by decide, by decide⟩

theorem evalAll_first_error (ev : Evaluator) (er : PyErr) (x : String)
    (pre post : List String) (hpre : ∀ y ∈ pre, ∃ v, ev y = .ok v)
    (hx : ev x = .error er) :
    evalAll ev (pre ++ x :: post) = .error er := by
  induction pre with
  | nil => simp [evalAll, hx]
  | cons y ys ih =>
    obtain ⟨v, hv⟩ := hpre y (by simp)
    have hr := ih (fun z hz => hpre z (by simp [hz]))
    simp [evalAll, hv, hr]

theorem attempted_first_error (ev : Evaluator) (er : PyErr) (x : String)
    (pre post : List String) (hpre : ∀ y ∈ pre, ∃ v, ev y = .ok v)
    (hx : ev x = .error er) :
    attemptedExprs ev (pre ++ x :: post) = pre ++ [x] := by
  induction pre with
  | nil => simp [attemptedExprs, hx]
  | cons y ys ih =>
    obtain ⟨v, hv⟩ := hpre y (by simp)
    simp [attemptedExprs, hv, ih (fun z hz => hpre z (by simp [hz]))]

/-- C2 counterexample: with an evaluator that fails on `bad`, a hit on the
expression list `[bad, x]` calls the evaluator only on `bad` — the remaining
expression `x` is never attempted, refuting the claim that every remaining
expression is still evaluated after a failure. -/
theorem eval_abort_counterexample :
    evFail "bad" = .error (.evalError "bad") ∧
    attemptedExprs evFail ["bad", "x"] = ["bad"] ∧
    attemptedExprs evFail ["bad", "x"] ≠ ["bad", "x"] := by
  refine ⟨by decide, by decide, by decide⟩

/-- C2 (amended): during a hit with the sink enabled, if an expression
evaluation fails then the loop of `Log.generateLog` stops at the first
failing expression (the ones after it are not attempted), no line is passed
to the log sink for that hit, and the exception propagates out of
`Log.stop`. -/
theorem stop_aborts_at_first_failure (p : String) (ev : Evaluator) (mess x : String)
    (er : PyErr) (pre post : List String)
    (hp1 : p ≠ "") (hp2 : p ≠ "none")
    (hpre : ∀ y ∈ pre, ∃ v, ev y = .ok v) (hx : ev x = .error er) :
    attemptedExprs ev (pre ++ x :: post) = pre ++ [x] ∧
    Log.stop p ev mess (pre ++ x :: post) = ([], .error er) := by
  refine ⟨attempted_first_error ev er x pre post hpre hx, ?_⟩
  have he := evalAll_first_error ev er x pre post hpre hx
  simp [Log.stop, Log.generateLog, he, hp1, hp2]

/-- Witness for `stop_aborts_at_first_failure` at a concrete sink, evaluator
and expression list. -/
theorem stop_aborts_at_first_failure_witness :
    attemptedExprs evFail (["x"] ++ "bad" :: ["y"]) = ["x"] ++ ["bad"] ∧
    Log.stop "log.txt" evFail "m" (["x"] ++ "bad" :: ["y"]) = ([], .error (.evalError "bad")) :=
  stop_aborts_at_first_failure "log.txt" evFail "m" "bad" (.evalError "bad") ["x"] ["y"]
    (by decide) (by decide)
    (fun y hy => ⟨"1", by
      simp only [List.mem_singleton] at hy
      subst hy
      decide⟩)
    (by decide)

theorem rmlogIndexed_nat (st : Registry) (i : Nat) (h : i < st.length) :
    rmlogIndexed st (i : Int) =
      if (st.get ⟨i, h⟩).live then
        .ok (st.set i { live := false, tp := (st.get ⟨i, h⟩).tp })
      else .error .refError := by
  have h0 : ¬((i : Int) < 0 ∨ (st.length : Int) ≤ (i : Int)) := by
    omega
  have ht : (i : Int).toNat = i := by omega
  rw [rmlogIndexed, if_neg h0, ht, List.get?_eq_get h]

/-- C4 counterexample: on a registry of two live tracepoints, `rmlog 0`
destroys the first binding but leaves its (now dead) slot in place: the
registry still has length 2 and the second tracepoint still sits at index 1 —
no slot is removed and no subsequent index shifts down, refuting the claim. -/
theorem rmlog_counterexample :
    rmlogIndexed demoTwoLive 0 = .ok [⟨false, tpA⟩, ⟨true, tpB⟩] ∧
    ([⟨false, tpA⟩, ⟨true, tpB⟩] : Registry).length = demoTwoLive.length ∧
    ([⟨false, tpA⟩, ⟨true, tpB⟩] : Registry).get? 1 = some ⟨true, tpB⟩ := by
  refine ⟨by decide, by decide, by decide⟩

/-- C4 (amended): `rmlog i` on an in-range index whose slot is live destroys
that tracepoint's binding but only marks the slot dead — the slot remains in
the registry, the length is unchanged and subsequent entries keep their
indices; on an out-of-range index (negative or at least the length, dead
slots included in the count) it raises `Log index out of bounds` and mutates
nothing. -/
theorem rmlog_marks_dead_keeps_slot (st : Registry) (i : Int) (e : RegEntry) :
    (0 ≤ i → st.get? i.toNat = some e → e.live = true →
      rmlogIndexed st i = .ok (st.set i.toNat { live := false, tp := e.tp }) ∧
      (st.set i.toNat { live := false, tp := e.tp }).length = st.length ∧
      ∀ j, j ≠ i.toNat → (st.set i.toNat { live := false, tp := e.tp }).get? j = st.get? j) ∧
    ((i < 0 ∨ (st.length : Int) ≤ i) →
      rmlogIndexed st i = .error (.exn "Log index out of bounds")) := by
  constructor
  · intro h0 hget hlive
    have hlt : i.toNat < st.length := List.get?_eq_some.mp hget |>.1
    have hb : ¬(i < 0 ∨ (st.length : Int) ≤ i) := by omega
    refine ⟨?_, by simp, fun j hj => List.get?_set_ne _ _ (fun hh => hj hh.symm)⟩
    rw [rmlogIndexed, if_neg hb, hget]
    simp [hlive]
  · intro h
    rw [rmlogIndexed, if_pos h]

/-- Witness for `rmlog_marks_dead_keeps_slot`: both branches instantiated on
the two-live-entry registry, at index 0 and at index -1. -/
theorem rmlog_marks_dead_keeps_slot_witness :
    (rmlogIndexed demoTwoLive 0 = .ok (demoTwoLive.set (Int.toNat 0) { live := false, tp := tpA }) ∧
     (demoTwoLive.set (Int.toNat 0) { live := false, tp := tpA }).length = demoTwoLive.length ∧
     ∀ j, j ≠ Int.toNat 0 →
       (demoTwoLive.set (Int.toNat 0) { live := false, tp := tpA }).get? j = demoTwoLive.get? j) ∧
    rmlogIndexed demoTwoLive (-1) = .error (.exn "Log index out of bounds") :=
  ⟨(rmlog_marks_dead_keeps_slot demoTwoLive 0 ⟨true, tpA⟩).1 (by decide) (by decide) (by decide),
   (rmlog_marks_dead_keeps_slot demoTwoLive (-1) ⟨true, tpA⟩).2 (by decide)⟩

theorem listLogsGo_mem_live (st : Registry) (k i : Nat) (h : i < st.length)
    (hl : (st.get ⟨i, h⟩).live = true) :
    (k + i, (st.get ⟨i, h⟩).tp.location, (st.get ⟨i, h⟩).tp.mMess) ∈ listLogsGo k st := by
  induction st generalizing k i with
  | nil => simp at h
  | cons e rest ih =>
    cases i with
    | zero =>
      simp only [List.get] at hl ⊢
      simp [listLogsGo, hl]
    | succ j =>
      have hj : j < rest.length := by simpa using h
      have harith : k + (j + 1) = (k + 1) + j := by omega
      have hm := ih (k + 1) j hj (by simpa using hl)
      rw [harith]
      simp only [List.get] at hm ⊢
      by_cases he : e.live
      · simp only [listLogsGo, he, if_true]
        exact List.mem_cons_of_mem _ hm
      · simpa [listLogsGo, he] using hm

theorem listLogsGo_length (st : Registry) (k : Nat) :
    (listLogsGo k st).length = (st.filter (fun e => e.live)).length := by
  induction st generalizing k with
  | nil => rfl
  | cons e rest ih =>
    by_cases he : e.live
    · simp [listLogsGo, he, List.filter_cons, ih]
    · simp [listLogsGo, he, List.filter_cons, ih]

/-- C9 counterexample: with a dead proxy in slot 0 and a live tracepoint in
slot 1, the listing omits the dead entry but shows the live one at index 1 —
its full-registry position — and `rmlog 0` addresses the dead slot (raising
`ReferenceError` rather than being out of range) while `rmlog 1` is the call
that removes the live tracepoint: a dead entry does consume an index
position, refuting the claim. -/
theorem dead_entry_consumes_index :
    listLogs demoDeadFirst = [(1, "b.c:2", "B")] ∧
    rmlogIndexed demoDeadFirst 0 = .error .refError ∧
    rmlogIndexed demoDeadFirst 1 = .ok [⟨false, tpA⟩, ⟨false, tpB⟩] := by
  refine ⟨by decide, by decide, by decide⟩

/-- C9 (amended): `listlogs` silently omits dead slots (its row count is the
number of live slots, no error is raised), but the indices it prints are
positions in the full registry, dead slots included; a subsequent `rmlog`
likewise indexes the full registry: on a listed (live) index it removes that
tracepoint's binding, and on a dead slot's index it is in bounds but raises
`ReferenceError` — dead entries still consume index positions. -/
theorem listLogs_full_registry_indices (st : Registry) :
    (listLogs st).length = (st.filter (fun e => e.live)).length ∧
    ∀ (i : Nat) (h : i < st.length),
      ((st.get ⟨i, h⟩).live = true →
        (i, (st.get ⟨i, h⟩).tp.location, (st.get ⟨i, h⟩).tp.mMess) ∈ listLogs st ∧
        rmlogIndexed st (i : Int) = .ok (st.set i { live := false, tp := (st.get ⟨i, h⟩).tp })) ∧
      ((st.get ⟨i, h⟩).live = false → rmlogIndexed st (i : Int) = .error .refError) := by
  refine ⟨listLogsGo_length st 0, fun i h => ⟨fun hl => ⟨?_, ?_⟩, fun hl => ?_⟩⟩
  · simpa using listLogsGo_mem_live st 0 i h hl
  · rw [rmlogIndexed_nat st i h, if_pos hl]
  · rw [rmlogIndexed_nat st i h, if_neg (by simpa using hl)]

/-- Witness for `listLogs_full_registry_indices` on the registry with a dead
slot 0 and a live slot 1. -/
theorem listLogs_full_registry_indices_witness :
    ((1, (demoDeadFirst.get ⟨1, by decide⟩).tp.location,
        (demoDeadFirst.get ⟨1, by decide⟩).tp.mMess) ∈ listLogs demoDeadFirst ∧
      rmlogIndexed demoDeadFirst ((1 : Nat) : Int) =
        .ok (demoDeadFirst.set 1 { live := false, tp := (demoDeadFirst.get ⟨1, by decide⟩).tp })) ∧
    rmlogIndexed demoDeadFirst ((0 : Nat) : Int) = .error .refError :=
  ⟨((listLogs_full_registry_indices demoDeadFirst).2 1 (by decide)).1 (by decide),
   ((listLogs_full_registry_indices demoDeadFirst).2 0 (by decide)).2 (by decide)⟩

/-- C6 counterexample: shared-template import of a file whose single line is
`break foo` with a one-placeholder shared message and an empty shared
expression list (arity mismatch 1 vs 0) succeeds and creates one tracepoint —
no `ValidationError`, not zero tracepoints created, refuting the claim that
the arity is validated before any line is processed. -/
theorem shared_import_no_arity_check :
    importLogsShared [] "\x7b\x7d" [] ["break foo"] =
      [⟨true, { location := "foo", mMess := "\x7b\x7d", mExprs := [] }⟩] ∧
    countPH ("\x7b\x7d" : String).data = 1 ∧
    ([] : List String).length = 0 := by
  refine ⟨by decide, by decide, by decide⟩

theorem importSharedGo_length (mess : String) (exprs : List String)
    (lines : List String) :
    (importSharedGo mess exprs lines).length =
      lines.countP (fun line => (stripTok breakTok.data (rstripPy line).data).isSome) := by
  induction lines with
  | nil => rfl
  | cons line rest ih =>
    cases hs : stripTok breakTok.data (rstripPy line).data with
    | some spec => simp [importSharedGo, List.countP_cons, hs, ih]
    | none => simp [importSharedGo, List.countP_cons, hs, ih]

theorem importSharedGo_filterMap (mess : String) (exprs : List String)
    (lines : List String) :
    importSharedGo mess exprs lines =
      lines.filterMap (fun line =>
        match stripTok breakTok.data (rstripPy line).data with
        | some spec =>
          some { live := true,
                 tp := { location := String.mk spec, mMess := mess, mExprs := exprs } }
        | none => none) := by
  induction lines with
  | nil => rfl
  | cons line rest ih =>
    cases hs : stripTok breakTok.data (rstripPy line).data with
    | some spec => simp [importSharedGo, List.filterMap_cons, hs, ih]
    | none => simp [importSharedGo, List.filterMap_cons, hs, ih]

/-- C6 (amended): shared-template import performs no arity validation at all —
for every shared message and shared expression list, matched or mismatched,
it appends to the registry exactly one tracepoint per `break `-prefixed line
of the file (after `rstrip`), carrying the shared message and expressions
unchecked, and skips the other lines; it never raises. -/
theorem shared_import_creates_regardless (st : Registry) (mess : String)
    (exprs : List String) (lines : List String) :
    importLogsShared st mess exprs lines =
      st ++ lines.filterMap (fun line =>
        match stripTok breakTok.data (rstripPy line).data with
        | some spec =>
          some { live := true,
                 tp := { location := String.mk spec, mMess := mess, mExprs := exprs } }
        | none => none) ∧
    (importLogsShared st mess exprs lines).length =
      st.length +
        (lines.countP (fun line => (stripTok breakTok.data (rstripPy line).data).isSome)) := by
  refine ⟨by rw [importLogsShared, importSharedGo_filterMap], ?_⟩
  rw [importLogsShared, List.length_append, importSharedGo_length]

theorem exportLinesGo_all_live (st : Registry) (h : ∀ e ∈ st, e.live = true) :
    exportLinesGo st = (st.map (fun e => exportLine e.tp), true) := by
  induction st with
  | nil => rfl
  | cons e rest ih =>
    have he := h e (by simp)
    simp [exportLinesGo, he, ih (fun x hx => h x (by simp [hx]))]

theorem exportLinesGo_abort (pre : Registry) (d : RegEntry) (post : Registry)
    (hpre : ∀ e ∈ pre, e.live = true) (hd : d.live = false) :
    exportLinesGo (pre ++ d :: post) = (pre.map (fun e => exportLine e.tp), false) := by
  induction pre with
  | nil => simp [exportLinesGo, hd]
  | cons e rest ih =>
    have he := hpre e (by simp)
    simp [exportLinesGo, he, ih (fun x hx => hpre x (by simp [hx]))]

/-- C7 counterexample: exporting a registry whose live entries are `tpA` and
`tpB` with a dead slot between them, to a file already holding `old` and a
newline, appends only `tpA`'s line and then aborts with `ReferenceError` on
the dead slot: `tpB`'s line is never written, refuting the claim that dead
entries are silently skipped and every live entry gets its line. -/
theorem export_aborts_on_dead_entry :
    exportInvoke demoExportAbort (some "old\n") =
      (some "old\naddlog a.c:1 \"A\"\n", false) := by
  decide

/-- C7 (amended): `exportlogs` touches the file (creating it empty when
absent, never truncating) and appends, in registry order, one canonical
`addlog` line per slot — but only while the slots are live: when every entry
is live each gets exactly one line and the command completes, while a dead
slot raises `ReferenceError`, aborting the export with exactly the lines of
the entries before it appended. -/
theorem export_appends_live_lines (st : Registry) (file : Option String) :
    ((∀ e ∈ st, e.live = true) →
      exportInvoke st file =
        (some (file.getD "" ++ String.join (st.map (fun e => exportLine e.tp ++ "\n"))), true)) ∧
    (∀ pre d post, st = pre ++ d :: post →
      (∀ e ∈ pre, e.live = true) → d.live = false →
      exportInvoke st file =
        (some (file.getD "" ++ String.join (pre.map (fun e => exportLine e.tp ++ "\n"))), false)) := by
  constructor
  · intro h
    rw [exportInvoke, exportLinesGo_all_live st h]
    simp only [List.map_map]
    rfl
  · intro pre d post hst hpre hd
    subst hst
    rw [exportInvoke, exportLinesGo_abort pre d post hpre hd]
    simp only [List.map_map]
    rfl

/-- Witness for `export_appends_live_lines`: the all-live branch on the
two-live registry over an absent file, and the abort branch on the registry
with a dead middle slot. -/
theorem export_appends_live_lines_witness :
    exportInvoke demoTwoLive none =
      (some ((none : Option String).getD "" ++
        String.join (demoTwoLive.map (fun e => exportLine e.tp ++ "\n"))), true) ∧
    exportInvoke demoExportAbort none =
      (some ((none : Option String).getD "" ++
        String.join (([⟨true, tpA⟩] : Registry).map (fun e => exportLine e.tp ++ "\n"))), false) :=
  ⟨(export_appends_live_lines demoTwoLive none).1 (by decide),
   (export_appends_live_lines demoExportAbort none).2 [⟨true, tpA⟩] ⟨false, tpClean⟩ [⟨true, tpB⟩]
     (by decide) (by decide) (by decide)⟩

theorem generateLog_no_newline (ev : Evaluator) (mess : String) (exprs : List String)
    (out : String) (h : Log.generateLog ev mess exprs = .ok out) :
    out.data.count '\n' = 0 := by
  rw [Log.generateLog] at h
  split at h
  · simp at h
  · split at h
    · simp at h
    · simp only [Except.ok.injEq] at h
      subst h
      simp [stripNl, List.count_eq_zero, List.mem_filter]

theorem string_data_append (a b : String) : (a ++ b).data = a.data ++ b.data := by
  cases a
  cases b
  rfl

/-- C10: on a successful hit the two sink destinations are asymmetric — with a
file sink the formatted line is appended followed by exactly one newline
character (the line itself contains none, they are stripped), while the
stdout sink receives the line with no trailing newline appended. -/
theorem stop_sink_asymmetry (p : String) (ev : Evaluator) (mess : String)
    (exprs : List String) (out : String)
    (hp1 : p ≠ "") (hp2 : p ≠ "none") (hp3 : p ≠ "stdout")
    (hgen : Log.generateLog ev mess exprs = .ok out) :
    Log.stop p ev mess exprs = ([.fileAppend p (out ++ "\n")], .ok false) ∧
    Log.stop "stdout" ev mess exprs = ([.console out], .ok false) ∧
    (out ++ "\n").data.count '\n' = 1 ∧ out.data.count '\n' = 0 := by
  have h0 := generateLog_no_newline ev mess exprs out hgen
  refine ⟨?_, ?_, ?_, h0⟩
  · simp [Log.stop, hgen, hp1, hp2, hp3]
  · simp [Log.stop, hgen]
  · rw [string_data_append, List.count_append, h0]
    rfl

/-- Witness for `stop_sink_asymmetry` with a one-placeholder template and an
evaluator returning `1`. -/
theorem stop_sink_asymmetry_witness :
    Log.stop "log.txt" evFail "\x7b\x7d" ["x"] =
      ([.fileAppend "log.txt" (("1" : String) ++ "\n")], .ok false) ∧
    Log.stop "stdout" evFail "\x7b\x7d" ["x"] = ([.console "1"], .ok false) ∧
    (("1" : String) ++ "\n").data.count '\n' = 1 ∧ ("1" : String).data.count '\n' = 0 :=
  stop_sink_asymmetry "log.txt" evFail "\x7b\x7d" ["x"] "1"
    (by decide) (by decide) (by decide) (by decide)

theorem mk_data_eq (s : String) : String.mk s.data = s := rfl

theorem argvGo_sp_some (rest acc : List Char) :
    argvGo (' ' :: rest) false false false (some acc) =
      acc.reverse :: argvGo rest false false false none := by
  have h1 : isArgvSp ' ' = true := by decide
  simp [argvGo, h1]

theorem argvGo_none_plain (c : Char) (rest : List Char)
    (h1 : isArgvSp c = false) (h2 : c ≠ qdChar) (h3 : c ≠ qsChar) (h4 : c ≠ bslChar) :
    argvGo (c :: rest) false false false none =
      argvGo rest false false false (some [c]) := by
  simp [argvGo, h1, h2, h3, h4]

theorem argvGo_none_qd (rest : List Char) :
    argvGo (qdChar :: rest) false false false none =
      argvGo rest false true false (some []) := by
  have h1 : isArgvSp qdChar = false := by decide
  have h3 : qdChar ≠ qsChar := by decide
  have h4 : qdChar ≠ bslChar := by decide
  simp [argvGo, h1, h3, h4]

theorem argvGo_dq_close (rest acc : List Char) :
    argvGo (qdChar :: rest) false true false (some acc) =
      argvGo rest false false false (some acc) := by
  have h1 : isArgvSp qdChar = false := by decide
  have h4 : qdChar ≠ bslChar := by decide
  simp [argvGo, h1, h4]

theorem argvGo_plain_run (t : List Char) (rem acc : List Char)
    (h : ∀ c ∈ t, plainTokenChar c = true) :
    argvGo (t ++ rem) false false false (some acc) =
      argvGo rem false false false (some (t.reverse ++ acc)) := by
  induction t generalizing acc with
  | nil => simp
  | cons c cs ih =>
    have hc := h c (by simp)
    simp only [plainTokenChar, Bool.and_eq_true, Bool.not_eq_true', bne_iff_ne] at hc
    obtain ⟨⟨⟨h1, h2⟩, h3⟩, h4⟩ := hc
    rw [List.cons_append]
    simp only [argvGo, h1, h2, h3, h4]
    simp only [Bool.false_eq_true, false_and, and_false, if_false, if_neg h4, if_neg h3,
      if_neg h2]
    rw [ih (c :: acc) (fun x hx => h x (by simp [hx]))]
    simp [List.append_assoc]

theorem argvGo_dq_run (m : List Char) (rem acc : List Char)
    (h : ∀ c ∈ m, cleanQuotedChar c = true) :
    argvGo (m ++ rem) false true false (some acc) =
      argvGo rem false true false (some (m.reverse ++ acc)) := by
  induction m generalizing acc with
  | nil => simp
  | cons c cs ih =>
    have hc := h c (by simp)
    simp only [cleanQuotedChar, Bool.and_eq_true, bne_iff_ne] at hc
    obtain ⟨h2, h4⟩ := hc
    rw [List.cons_append]
    simp only [argvGo, if_neg h4, if_neg h2]
    simp only [Bool.true_eq_false, false_and, and_false, if_false]
    rw [ih (c :: acc) (fun x hx => h x (by simp [hx]))]
    simp [List.append_assoc]

theorem argvGo_quoted (s : String) (tail : List Char)
    (h : ∀ c ∈ s.data, cleanQuotedChar c = true) :
    argvGo (quotedChars s ++ tail) false false false none =
      argvGo tail false false false (some s.data.reverse) := by
  rw [quotedChars, List.cons_append, argvGo_none_qd]
  rw [List.append_assoc, List.singleton_append]
  rw [argvGo_dq_run s.data (qdChar :: tail) [] h]
  rw [List.append_nil, argvGo_dq_close]

theorem argvGo_exprs_chain (exprs : List String) (acc : List Char)
    (h : ∀ x ∈ exprs, ∀ c ∈ x.data, cleanQuotedChar c = true) :
    argvGo (exprsChars exprs) false false false (some acc) =
      acc.reverse :: exprs.map (fun s => s.data) := by
  induction exprs generalizing acc with
  | nil => simp [exprsChars, argvGo]
  | cons e es ih =>
    rw [exprsChars, argvGo_sp_some, argvGo_quoted e (exprsChars es) (h e (by simp))]
    rw [ih e.data.reverse (fun x hx => h x (by simp [hx]))]
    simp

theorem argv_argChars (tp : Tracepoint)
    (hne : tp.location.data ≠ [])
    (hpl : ∀ c ∈ tp.location.data, plainTokenChar c = true)
    (hm : ∀ c ∈ tp.mMess.data, cleanQuotedChar c = true)
    (he : ∀ x ∈ tp.mExprs, ∀ c ∈ x.data, cleanQuotedChar c = true) :
    argvGo (argChars tp) false false false none =
      tp.location.data :: tp.mMess.data :: tp.mExprs.map (fun s => s.data) := by
  obtain ⟨c, cs, hcs⟩ : ∃ c cs, tp.location.data = c :: cs := by
    cases hl : tp.location.data with
    | nil => exact absurd hl hne
    | cons c cs => exact ⟨c, cs, rfl⟩
  have hc := hpl c (by rw [hcs]; simp)
  simp only [plainTokenChar, Bool.and_eq_true, Bool.not_eq_true', bne_iff_ne] at hc
  obtain ⟨⟨⟨h1, h2⟩, h3⟩, h4⟩ := hc
  rw [argChars, hcs, List.cons_append, argvGo_none_plain c _ h1 h2 h3 h4]
  rw [argvGo_plain_run cs (' ' :: (quotedChars tp.mMess ++ exprsChars tp.mExprs)) [c]
    (fun x hx => hpl x (by rw [hcs]; simp [hx]))]
  rw [argvGo_sp_some, argvGo_quoted tp.mMess (exprsChars tp.mExprs) hm]
  rw [argvGo_exprs_chain tp.mExprs tp.mMess.data.reverse he]
  simp [hcs]

theorem stripTok_pre (t s : List Char) : stripTok t (t ++ s) = some s := by
  induction t with
  | nil => rfl
  | cons c cs ih => simp [stripTok, ih]

theorem addLogInvoke_exportArg (st : Registry) (tp : Tracepoint)
    (hne : tp.location.data ≠ [])
    (hpl : ∀ c ∈ tp.location.data, plainTokenChar c = true)
    (hm : ∀ c ∈ tp.mMess.data, cleanQuotedChar c = true)
    (he : ∀ x ∈ tp.mExprs, ∀ c ∈ x.data, cleanQuotedChar c = true)
    (har : countPH tp.mMess.data = tp.mExprs.length ∧ countPH tp.mMess.data ≤ 256) :
    addLogInvoke st (String.mk (argChars tp)) = .ok (st ++ [⟨true, tp⟩]) := by
  have hnil : argChars tp ≠ [] := by
    cases hl : tp.location.data <;> simp [argChars, hl]
  have harg : String.mk (argChars tp) ≠ "" := by
    intro hh
    exact hnil (congrArg String.data hh)
  rw [addLogInvoke, if_neg harg, stringToArgv]
  rw [mk_data_eq (String.mk (argChars tp))]
  rw [argv_argChars tp hne hpl hm he]
  simp only [List.map_cons, mk_data_eq]
  have hexp : (tp.mExprs.map (fun s => s.data)).map (fun l => String.mk l) = tp.mExprs := by
    induction tp.mExprs with
    | nil => rfl
    | cons x xs ih => simp [mk_data_eq, ih]
  rw [hexp, addLogArgs]
  have hb := har.2
  rw [har.1] at hb
  have hno : intIsNot (countPH tp.mMess.data) tp.mExprs.length = false := by
    simp [intIsNot, har.1, decide_eq_true hb]
  simp only [hno, Bool.false_eq_true, if_false]

theorem deleteAllGo_all_live (st : Registry) (h : ∀ e ∈ st, e.live = true) :
    (deleteAllGo st).2 = true := by
  induction st with
  | nil => rfl
  | cons e rest ih =>
    simp [deleteAllGo, h e (by simp), ih (fun x hx => h x (by simp [hx]))]

theorem rmlogNoArg_all_live (st : Registry) (h : ∀ e ∈ st, e.live = true) :
    rmlogNoArg st = ([], true) := by
  rw [rmlogNoArg, if_pos]
  exact deleteAllGo_all_live st h

theorem importDefsGo_export (st : Registry) (acc : Registry)
    (hlive : ∀ e ∈ st, e.live = true)
    (hne : ∀ e ∈ st, e.tp.location.data ≠ [])
    (hpl : ∀ e ∈ st, ∀ c ∈ e.tp.location.data, plainTokenChar c = true)
    (hm : ∀ e ∈ st, ∀ c ∈ e.tp.mMess.data, cleanQuotedChar c = true)
    (he : ∀ e ∈ st, ∀ x ∈ e.tp.mExprs, ∀ c ∈ x.data, cleanQuotedChar c = true)
    (har : ∀ e ∈ st, countPH e.tp.mMess.data = e.tp.mExprs.length ∧
      countPH e.tp.mMess.data ≤ 256) :
    importDefsGo acc (st.map (fun e => exportLine e.tp)) = .ok (acc ++ st) := by
  induction st generalizing acc with
  | nil => simp [importDefsGo]
  | cons e rest ih =>
    have hdata : (exportLine e.tp).data = addlogTok.data ++ argChars e.tp := rfl
    have hadd := addLogInvoke_exportArg acc e.tp (hne e (List.mem_cons_self e rest))
      (hpl e (List.mem_cons_self e rest)) (hm e (List.mem_cons_self e rest))
      (he e (List.mem_cons_self e rest)) (har e (List.mem_cons_self e rest))
    have heq : (⟨true, e.tp⟩ : RegEntry) = e := by
      rw [← hlive e (List.mem_cons_self e rest)]
    rw [List.map_cons, importDefsGo, hdata, stripTok_pre]
    simp only [hadd, heq]
    rw [ih (acc ++ [e]) (fun x hx => hlive x (List.mem_cons_of_mem e hx))
      (fun x hx => hne x (List.mem_cons_of_mem e hx))
      (fun x hx => hpl x (List.mem_cons_of_mem e hx))
      (fun x hx => hm x (List.mem_cons_of_mem e hx))
      (fun x hx => he x (List.mem_cons_of_mem e hx))
      (fun x hx => har x (List.mem_cons_of_mem e hx))]
    simp

/-- C5 counterexample: a live registry holding one tracepoint whose template
contains a literal double quote round-trips to a different tracepoint — the
export line `addlog s "a"b"` re-tokenizes to the template `ab` — refuting the
claim for every registry of live tracepoints (the export format never escapes
embedded quotes). -/
theorem roundtrip_quote_counterexample :
    roundTrip demoQuote = .ok [⟨true, { location := "s", mMess := "ab", mExprs := [] }⟩] ∧
    ({ location := "s", mMess := "ab", mExprs := [] } : Tracepoint) ≠ tpQuote := by
  refine ⟨by decide, by decide⟩

/-- C5 (amended): exporting a live registry, clearing it with `rmlog`, then
replaying the exported file in single-argument mode reproduces the same
ordered tracepoints (same location, template, expressions), provided every
location is a nonempty token of plain characters (no whitespace, quotes or
backslashes), templates and expressions contain no double quote and no
backslash, and each entry satisfies the creation arity invariant with at most
256 placeholders. -/
theorem roundtrip_clean_registry (st : Registry)
    (hlive : ∀ e ∈ st, e.live = true)
    (hne : ∀ e ∈ st, e.tp.location.data ≠ [])
    (hpl : ∀ e ∈ st, ∀ c ∈ e.tp.location.data, plainTokenChar c = true)
    (hm : ∀ e ∈ st, ∀ c ∈ e.tp.mMess.data, cleanQuotedChar c = true)
    (he : ∀ e ∈ st, ∀ x ∈ e.tp.mExprs, ∀ c ∈ x.data, cleanQuotedChar c = true)
    (har : ∀ e ∈ st, countPH e.tp.mMess.data = e.tp.mExprs.length ∧
      countPH e.tp.mMess.data ≤ 256) :
    roundTrip st = .ok st := by
  rw [roundTrip, rmlogNoArg_all_live st hlive, exportLinesGo_all_live st hlive]
  simpa using importDefsGo_export st [] hlive hne hpl hm he har

/-- Witness for `roundtrip_clean_registry` on a one-entry registry with a
two-placeholder template and two expressions. -/
theorem roundtrip_clean_registry_witness : roundTrip demoClean = .ok demoClean :=
  roundtrip_clean_registry demoClean (by decide) (by decide) (by decide) (by decide)
    (by decide) (by decide)
